import Mathlib

/-!
Verification of the mappie tile-coordinate and image-compositing engine.

The development shallowly embeds the arithmetic of `adjust.py` and the
manager classes of `sources.py`.  Real-valued Python floats are modelled by
real numbers; the Python builtin `round` (round to nearest integer) is
modelled by Mathlib's `round : ℝ → ℤ`, Python `int()` (truncation toward
zero) by `truncInt` below, and Python 2 integer division by `Int.fdiv`
(Python 2 `/` on ints is floor division).  File-system state, the HTTP
fetcher and the MD5 digest are external collaborators and are passed in as
explicit function arguments.
-/

open Real

noncomputable section

/-! ## adjust.py -/

/-- Constant OFFSET from adjust.py (2^28). -/
def OFFSET : ℝ := 268435456

/-- Constant RADIUS = OFFSET / pi from adjust.py. -/
def RADIUS : ℝ := OFFSET / π

/-- Python math.radians. -/
def radians (d : ℝ) : ℝ := d * π / 180

/-- Python math.degrees. -/
def degrees (r : ℝ) : ℝ := r * 180 / π

/-- LonToX from adjust.py: round(OFFSET + RADIUS * radians(lon)). -/
def LonToX (lon : ℝ) : ℤ := round (OFFSET + RADIUS * radians lon)

/-- LatToY from adjust.py:
round(OFFSET - RADIUS * log((1+sin(radians lat))/(1-sin(radians lat))) / 2). -/
def LatToY (lat : ℝ) : ℤ :=
  round (OFFSET - RADIUS * (Real.log ((1 + Real.sin (radians lat)) / (1 - Real.sin (radians lat)))) / 2)

/-- XToLon from adjust.py: degrees((round(x) - OFFSET) / RADIUS). -/
def XToLon (x : ℝ) : ℝ := degrees ((((round x : ℤ) : ℝ) - OFFSET) / RADIUS)

/-- YToLat from adjust.py: degrees(pi/2 - 2*atan(exp((round(y) - OFFSET)/RADIUS))). -/
def YToLat (y : ℝ) : ℝ :=
  degrees (π / 2 - 2 * Real.arctan (Real.exp ((((round y : ℤ) : ℝ) - OFFSET) / RADIUS)))

/-- XYToLL from adjust.py.  The source computes `x << (21 - z)`, which for
z ≤ 21 is `x * 2 ^ (21 - z)` (for z > 21 the Python shift raises, and every
claim below restricts to z ≤ 21).  LonToX returns an integral float, so the
inner round of XToLon recovers exactly the shifted integer; the embedding
therefore keeps the sum in ℤ. -/
def XYToLL (x y : ℤ) (lon lat : ℝ) (z : ℕ) : ℝ × ℝ :=
  (XToLon (((LonToX lon + x * 2 ^ (21 - z) : ℤ) : ℝ)),
   YToLat (((LatToY lat + y * 2 ^ (21 - z) : ℤ) : ℝ)))

/-- Python int() applied to a float: truncation toward zero. -/
def truncInt (r : ℝ) : ℤ := if 0 ≤ r then ⌊r⌋ else ⌈r⌉

end

/-! ## sources.py: manager state and string-level helpers -/

/-- The fields of a MapManager that the claims exercise.  `cache_pre` is the
source attribute named cache_USCOREprefix (renamed here for lexical reasons),
set in MapManager.init from an MD5 digest of the server URL; `maptype` is set
by the subclass create_map methods. -/
structure MapMgr where
  cache : String
  server : String
  maptype : String
  cache_pre : String

/-- MapManager.init, cache-filename hash: md5 = hashlib.md5();
md5.update(self.server); prefix = (string "mappie-%s-") % md5.hexdigest()[:5].
The MD5 hex digest is an external library call, injected as `md5hex`. -/
def mk_cache_pre (md5hex : String → String) (server : String) : String :=
  "mappie-" ++ (md5hex server).take 5 ++ "-"

/-- os.path.join for an ordinary directory path (no trailing slash) and a
relative filename, the only shape the managers produce. -/
def pathJoin (d f : String) : String := d ++ "/" ++ f

/-- Whether an Except value is a success. -/
def isOkE {ε α : Type} : Except ε α → Bool
  | Except.ok _ => true
  | Except.error _ => false

namespace ImageManager

/-- ImageManager.prepare_image acting on the managed image, which is modelled
by its dimensions (width, height); None models no image.  Python truthiness
of a PIL image is isSome.  On error, the stored image is left untouched (the
source raises before assigning). -/
def prepare_image (image : Option (ℤ × ℤ)) (width height : ℤ) (overwrite : Bool) :
    Except String (Option (ℤ × ℤ)) :=
  if image.isSome && !overwrite then
    Except.error "Image already prepared. Set \x27overwrite\x27 to True if you want to create a new image."
  else Except.ok (some (width, height))

/-- The mode computed from the color keyword in the create_map methods
(lines 382-389 and 749-757 of sources.py): a truthy value other than
"color"/"bw" is replaced by "color" after a printed warning, and mode is "L"
exactly when the resulting color is "bw"; every other case (None, empty
string, "color", replaced invalid values) yields "RGBA". -/
def color_mode (color : Option String) : String :=
  match color with
  | some c => if c = "bw" then "L" else "RGBA"
  | none => "RGBA"

end ImageManager

namespace MapManager

/-- MapManager.get_tile_url: server + "/%s/%d/%d/%d.png" % (maptype, zoom, x, y). -/
def get_tile_url (mgr : MapMgr) (tile_coord : ℤ × ℤ) (zoom : ℕ) : String :=
  mgr.server ++ "/" ++ mgr.maptype ++ "/" ++ toString zoom ++ "/" ++
    toString tile_coord.1 ++ "/" ++ toString tile_coord.2 ++ ".png"

/-- MapManager.get_local_filename:
path.join(cache, "%s%s_%d_%d_%d.png" % (prefix, maptype, zoom, x, y)). -/
def get_local_filename (mgr : MapMgr) (tile_coord : ℤ × ℤ) (zoom : ℕ) : String :=
  pathJoin mgr.cache (mgr.cache_pre ++ mgr.maptype ++ "_" ++ toString zoom ++ "_" ++
    toString tile_coord.1 ++ "_" ++ toString tile_coord.2 ++ ".png")

/-- MapManager.retrieve_tile_image.  `fs` is the file system (path.isfile),
`fetch` the injected downloader (urllib.urlretrieve); the second component
records the URLs fetched during the call.  A cached file short-circuits the
fetch; otherwise a single fetch is attempted and a failure is wrapped in the
message "Unable to retrieve URL: " + url + newline + cause. -/
def retrieve_tile_image (mgr : MapMgr) (fs : String → Bool)
    (fetch : String → String → Except String Unit)
    (tile_coord : ℤ × ℤ) (zoom : ℕ) : Except String String × List String :=
  let filename := get_local_filename mgr tile_coord zoom
  if fs filename then (Except.ok filename, [])
  else
    let url := get_tile_url mgr tile_coord zoom
    match fetch url filename with
    | Except.ok _ => (Except.ok filename, [url])
    | Except.error e => (Except.error ("Unable to retrieve URL: " ++ url ++ "\n" ++ e), [url])

/-- The nested tile loop of MapManager.create_map: for x in range(minX, maxX+1),
for y in range(minY, maxY+1), paired with the paste offset
(256*(x-minX), 256*(y-minY)) computed in the loop body. -/
def tile_grid (minX maxX minY maxY : ℤ) : List ((ℤ × ℤ) × (ℤ × ℤ)) :=
  (List.range (maxX + 1 - minX).toNat).flatMap fun (i : ℕ) =>
    (List.range (maxY + 1 - minY).toNat).map fun (j : ℕ) =>
      ((minX + (i : ℤ), minY + (j : ℤ)), (256 * (i : ℤ), 256 * (j : ℤ)))

/-- The effectful body of the tile loop: each tile is retrieved and then
pasted at its offset; the first failure aborts the whole loop, as a raised
exception does in the source. -/
def run_tiles (mgr : MapMgr) (fs : String → Bool)
    (fetch : String → String → Except String Unit) (zoom : ℕ) :
    List ((ℤ × ℤ) × (ℤ × ℤ)) → Except String (List (String × (ℤ × ℤ)))
  | [] => Except.ok []
  | (t, off) :: rest =>
    match (retrieve_tile_image mgr fs fetch t zoom).1 with
    | Except.ok fname =>
      match run_tiles mgr fs fetch zoom rest with
      | Except.ok ps => Except.ok ((fname, off) :: ps)
      | Except.error e => Except.error e
    | Except.error e => Except.error e

end MapManager

noncomputable section

namespace MapManager

/-- MapManager.get_tile_coord (slippy-map formula); Python int() truncates. -/
def get_tile_coord (lon_deg lat_deg : ℝ) (zoom : ℕ) : ℤ × ℤ :=
  let lat_rad := lat_deg * π / 180
  let n : ℝ := 2 ^ zoom
  (truncInt ((lon_deg + 180) / 360 * n),
   truncInt ((1 - Real.log (Real.tan lat_rad + 1 / Real.cos lat_rad) / π) / 2 * n))

/-- The latitude of the northwest corner of tile row y (real-valued row). -/
def tileRowLat (y : ℝ) (zoom : ℕ) : ℝ :=
  Real.arctan (Real.sinh (π * (1 - 2 * y / 2 ^ zoom))) * 180 / π

/-- The longitude of the northwest corner of tile column x (real-valued column). -/
def tileColLon (x : ℝ) (zoom : ℕ) : ℝ := x / 2 ^ zoom * 360 - 180

/-- MapManager.tile_nw_latlon: (lat_deg, lon_deg) of the upper left corner. -/
def tile_nw_latlon (tile_coord : ℤ × ℤ) (zoom : ℕ) : ℝ × ℝ :=
  (tileRowLat ((tile_coord.2 : ℤ) : ℝ) zoom, tileColLon ((tile_coord.1 : ℤ) : ℝ) zoom)

/-- The result of a successful MapManager.create_map call: the image-manager
mode, the traversed (tile, offset) grid, the executed pastes
(local filename, offset), and the returned bounding box
(new_minlat, new_maxlat, new_minlon, new_maxlon). -/
structure MapResult where
  mode : String
  tiles : List ((ℤ × ℤ) × (ℤ × ℤ))
  pasted : List (String × (ℤ × ℤ))
  bounds : ℝ × ℝ × ℝ × ℝ

/-- MapManager.create_map.  State passed in and out explicitly: `image` is the
image manager's current image (by its dimensions).  kwargs color and
overwrite are Options (kwargs.get returns None when absent); a missing
overwrite defaults to True.  The first component of the result is the image
state after the call (unchanged when prepare_image raises, since the source
raises before assigning).  The manager-presence guard of the source is
always satisfied (init assigns a PILImageManager unconditionally), and the
non-bool overwrite TypeError cannot arise in the typed embedding. -/
def create_map (mgr : MapMgr) (image : Option (ℤ × ℤ)) (fs : String → Bool)
    (fetch : String → String → Except String Unit)
    (minlat maxlat minlon maxlon : ℝ) (zoom : ℕ)
    (color : Option String) (overwrite : Option Bool) :
    Option (ℤ × ℤ) × Except String MapResult :=
  let mode := ImageManager.color_mode color
  let ow := overwrite.getD true
  let topleft := get_tile_coord minlon maxlat zoom
  let bottomright := get_tile_coord maxlon minlat zoom
  let minX := topleft.1
  let minY := topleft.2
  let maxX := bottomright.1
  let maxY := bottomright.2
  let nw := tile_nw_latlon topleft zoom
  let se := tile_nw_latlon (maxX + 1, maxY + 1) zoom
  let pix_width := (maxX - minX + 1) * 256
  let pix_height := (maxY - minY + 1) * 256
  match ImageManager.prepare_image image pix_width pix_height ow with
  | Except.error e => (image, Except.error e)
  | Except.ok image2 =>
    let grid := tile_grid minX maxX minY maxY
    match run_tiles mgr fs fetch zoom grid with
    | Except.error e => (image2, Except.error e)
    | Except.ok ps =>
      (image2, Except.ok { mode := mode, tiles := grid, pasted := ps,
                           bounds := (se.1, nw.1, nw.2, se.2) })

end MapManager

end


/-! ## sources.py: GoogleManager -/

namespace GoogleManager

/-- GoogleManager.init, server construction from language / region / sensor
keywords: "http://maps.googleapis.com/maps/api/staticmap?%s&%s&%s".  Python
truthiness makes an empty language or region string vanish, and any sensor
value other than True renders as "sensor=false". -/
def mk_server (language region : Option String) (sensor : Option Bool) : String :=
  let l := match language with
    | some s => if s = "" then "" else "language=" ++ s
    | none => ""
  let r := match region with
    | some s => if s = "" then "" else "region=" ++ s
    | none => ""
  let sens := match sensor with
    | some true => "sensor=true"
    | _ => "sensor=false"
  "http://maps.googleapis.com/maps/api/staticmap?" ++ l ++ "&" ++ r ++ "&" ++ sens

/-- re.sub applied in GoogleManager.get_tile_url with pattern one-or-more
ampersands and replacement a single ampersand: collapse runs of the
ampersand character. -/
def squeezeAmpAux : List Char → List Char
  | [] => []
  | [c] => [c]
  | c1 :: c2 :: rest =>
    if c1 == '&' && c2 == '&' then squeezeAmpAux (c2 :: rest)
    else c1 :: squeezeAmpAux (c2 :: rest)

/-- String form of squeezeAmpAux. -/
def squeezeAmp (s : String) : String := String.mk (squeezeAmpAux s.data)

/-- The maptype block of GoogleManager.create_map (kwargs.get, truthiness,
membership in the four Google map types).  The error text renders the
format string of the source, typo included. -/
def pick_maptype : Option String → Except String String
  | none => Except.ok "terrain"
  | some m =>
    if m = "" then Except.ok "terrain"
    else if m = "terrain" ∨ m = "satellite" ∨ m = "roadmap" ∨ m = "hybrid" then Except.ok m
    else Except.error "Invalid maptype specified, must be \x27terrain\x27, \x27satellite\x27, roadmap, or \x27hybrid\x27."

/-- The size block of GoogleManager.create_map: a missing size defaults to
(256, 256); a supplied tuple (always truthy in Python) must have both
components in (0, 640]. -/
def pick_size : Option (ℤ × ℤ) → Except String (ℤ × ℤ)
  | none => Except.ok (256, 256)
  | some s =>
    if 0 < s.1 ∧ s.1 ≤ 640 ∧ 0 < s.2 ∧ s.2 ≤ 640 then Except.ok s
    else Except.error "Invalid size parameter, must be < 640x640"

/-- The scale block of GoogleManager.create_map.  The source guards the
membership test with Python truthiness (if self.scale:), so a supplied
scale of 0 is falsy and silently defaults to 2 instead of being validated. -/
def pick_scale : Option ℤ → Except String ℤ
  | none => Except.ok 2
  | some s =>
    if s = 0 then Except.ok 2
    else if s = 1 ∨ s = 2 ∨ s = 4 then Except.ok s
    else Except.error "Invalid scale parameter, must be 1, 2, or 4"

/-- The markers block of GoogleManager.create_map.  For a truthy (non-empty)
markers value the source evaluates isinstance(markers, list) where the bare
name markers is undefined in that scope, so the call raises NameError. -/
def pick_markers : Option (List (ℝ × ℝ)) → Except String (Option (List (ℝ × ℝ)))
  | none => Except.ok none
  | some [] => Except.ok (some [])
  | some (_ :: _) => Except.error "NameError: global name \x27markers\x27 is not defined"

/-- The paths block of GoogleManager.create_map; same undefined bare name as
the markers block. -/
def pick_paths : Option (List (List (ℝ × ℝ))) → Except String (Option (List (List (ℝ × ℝ))))
  | none => Except.ok none
  | some [] => Except.ok (some [])
  | some (_ :: _) => Except.error "NameError: global name \x27paths\x27 is not defined"

end GoogleManager

noncomputable section

namespace GoogleManager

/-- GoogleManager.get_tile_url.  `fmt` is the injected rendering of a Python
float with the percent-s format.  The markers and paths parameters never
reach this function with truthy values (create_map raises NameError first),
so their URL fragments are the empty string here. -/
def get_tile_url (server : String) (fmt : ℝ → String) (mt : String) (sz : ℤ × ℤ)
    (sc : ℤ) (style : Option String)
    (minlat maxlat minlon maxlon : ℝ) (zoom : ℕ) : String :=
  let center_url := "center=" ++ fmt ((minlat + maxlat) / 2) ++ "," ++ fmt ((minlon + maxlon) / 2)
  let zoom_url := "zoom=" ++ toString zoom
  let size_url := "size=" ++ toString sz.1 ++ "x" ++ toString sz.2
  let scale_url := "scale=" ++ toString sc
  let format_url := "format=png8"
  let maptype_url := "maptype=" ++ mt
  let style_url := match style with
    | some s => if s = "" then "" else "style=" ++ s
    | none => ""
  let markers_url := ""
  let paths_url := ""
  let params_url := String.intercalate "&" [center_url, zoom_url, size_url, scale_url,
    format_url, maptype_url, style_url, markers_url, paths_url]
  let full_url := squeezeAmp (server ++ "&" ++ params_url)
  if full_url.endsWith "&" then full_url.dropRight 1 else full_url

/-- The result of a successful GoogleManager.create_map call. -/
structure GoogleResult where
  maptype : String
  size : ℤ × ℤ
  scale : ℤ
  mode : String
  pasted : List (String × (ℤ × ℤ))
  bounds : ℝ × ℝ × ℝ × ℝ

/-- GoogleManager.create_map.  Validation blocks run in source order
(maptype, size, scale, style, markers, paths), then color/overwrite handling,
prepare_image, a single retrieve through the inherited
MapManager.retrieve_tile_image - whose filename formats the first two bbox
components with percent-d, truncating the floats - and one paste at (0, 0).
The returned bounding box applies XYToLL around the bbox center with
half-size pixel offsets, using Python 2 floor division (Int.fdiv).  For
zoom > 21 the shift x << (21 - zoom) inside XYToLL has a negative shift
count and raises ValueError in Python; since that happens only after
prepare_image, fetch and paste have run, the embedding returns that error
with the already-updated image state.  The style block only checks
isinstance(style, str), which the typed embedding makes vacuous. -/
def create_map (mgr : MapMgr) (image : Option (ℤ × ℤ)) (fs : String → Bool)
    (fetch : String → String → Except String Unit) (fmt : ℝ → String)
    (minlat maxlat minlon maxlon : ℝ) (zoom : ℕ)
    (maptype : Option String) (size : Option (ℤ × ℤ)) (scale : Option ℤ)
    (style : Option String) (markers : Option (List (ℝ × ℝ)))
    (paths : Option (List (List (ℝ × ℝ))))
    (color : Option String) (overwrite : Option Bool) :
    Option (ℤ × ℤ) × Except String GoogleResult :=
  match pick_maptype maptype with
  | Except.error e => (image, Except.error e)
  | Except.ok mt =>
  match pick_size size with
  | Except.error e => (image, Except.error e)
  | Except.ok sz =>
  match pick_scale scale with
  | Except.error e => (image, Except.error e)
  | Except.ok sc =>
  match pick_markers markers with
  | Except.error e => (image, Except.error e)
  | Except.ok _ =>
  match pick_paths paths with
  | Except.error e => (image, Except.error e)
  | Except.ok _ =>
  let mode := ImageManager.color_mode color
  let ow := overwrite.getD true
  let pix_width := sc * sz.2
  let pix_height := sc * sz.1
  match ImageManager.prepare_image image pix_width pix_height ow with
  | Except.error e => (image, Except.error e)
  | Except.ok image2 =>
    let filename := pathJoin mgr.cache (mgr.cache_pre ++ mt ++ "_" ++ toString zoom ++ "_" ++
      toString (truncInt minlat) ++ "_" ++ toString (truncInt maxlat) ++ ".png")
    let url := get_tile_url mgr.server fmt mt sz sc style minlat maxlat minlon maxlon zoom
    let fetched : Except String String :=
      if fs filename then Except.ok filename
      else
        match fetch url filename with
        | Except.ok _ => Except.ok filename
        | Except.error e => Except.error ("Unable to retrieve URL: " ++ url ++ "\n" ++ e)
    match fetched with
    | Except.error e => (image2, Except.error e)
    | Except.ok fname =>
      if zoom ≤ 21 then
        let centX := (minlon + maxlon) / 2
        let centY := (minlat + maxlat) / 2
        let nw := XYToLL (Int.fdiv (-sz.1) 2) (Int.fdiv (-sz.2) 2) centX centY zoom
        let se := XYToLL (Int.fdiv sz.1 2) (Int.fdiv sz.2 2) centX centY zoom
        (image2, Except.ok { maptype := mt, size := sz, scale := sc, mode := mode,
                             pasted := [(fname, (0, 0))],
                             bounds := (se.2, nw.2, nw.1, se.1) })
      else
        (image2, Except.error "ValueError: negative shift count")

end GoogleManager

end

/-! ## Supporting lemmas: adjust.py arithmetic -/

lemma OFFSET_pos : (0 : ℝ) < OFFSET := by norm_num [OFFSET]

lemma OFFSET_ne : (OFFSET : ℝ) ≠ 0 := ne_of_gt OFFSET_pos

lemma RADIUS_pos : (0 : ℝ) < RADIUS := div_pos OFFSET_pos Real.pi_pos

lemma RADIUS_ne : (RADIUS : ℝ) ≠ 0 := ne_of_gt RADIUS_pos

lemma degrees_radians (x : ℝ) : degrees (radians x) = x := by
  unfold degrees radians
  field_simp

/-- Error form of the longitude round trip: the only loss is the pixel
rounding inside LonToX, scaled back to degrees. -/
lemma lon_roundtrip_err (lon : ℝ) :
    |XToLon ((LonToX lon : ℤ) : ℝ) - lon| ≤ 90 / OFFSET := by
  have hπ : (π : ℝ) ≠ 0 := Real.pi_ne_zero
  have hO : (OFFSET : ℝ) ≠ 0 := OFFSET_ne
  have key : XToLon ((LonToX lon : ℤ) : ℝ) - lon
      = (((LonToX lon : ℤ) : ℝ) - (OFFSET + RADIUS * radians lon)) * (180 / OFFSET) := by
    unfold XToLon degrees radians RADIUS
    rw [round_intCast]
    field_simp
    ring
  have h2 : |((LonToX lon : ℤ) : ℝ) - (OFFSET + RADIUS * radians lon)| ≤ 1 / 2 := by
    unfold LonToX
    rw [abs_sub_comm]
    exact abs_sub_round _
  have hpos : (0 : ℝ) < 180 / OFFSET := div_pos (by norm_num) OFFSET_pos
  rw [key, abs_mul, abs_of_pos hpos]
  calc |((LonToX lon : ℤ) : ℝ) - (OFFSET + RADIUS * radians lon)| * (180 / OFFSET)
      ≤ (1 / 2) * (180 / OFFSET) := mul_le_mul_of_nonneg_right h2 hpos.le
    _ = 90 / OFFSET := by ring

/-- The inverse Mercator map u to pi/2 - 2*atan(exp u) moves points by no
more than the distance between its arguments (its derivative is a
hyperbolic secant, bounded by 1). -/
lemma merc_lipschitz (a b : ℝ) :
    |(π / 2 - 2 * Real.arctan (Real.exp a)) - (π / 2 - 2 * Real.arctan (Real.exp b))| ≤ |a - b| := by
  have hd : ∀ x : ℝ, HasDerivAt (fun u => π / 2 - 2 * Real.arctan (Real.exp u))
      (-(2 * (1 / (1 + Real.exp x ^ 2) * Real.exp x))) x := by
    intro x
    have h1 : HasDerivAt (fun u => Real.arctan (Real.exp u))
        (1 / (1 + Real.exp x ^ 2) * Real.exp x) x :=
      (Real.hasDerivAt_arctan (Real.exp x)).comp x (Real.hasDerivAt_exp x)
    exact (h1.const_mul (2 : ℝ)).const_sub (π / 2)
  have hb : ∀ x : ℝ, ‖-(2 * (1 / (1 + Real.exp x ^ 2) * Real.exp x))‖ ≤ 1 := by
    intro x
    have he := Real.exp_pos x
    have hden : (0 : ℝ) < 1 + Real.exp x ^ 2 := by positivity
    rw [Real.norm_eq_abs, abs_neg, abs_of_nonneg (by positivity)]
    rw [show (2 : ℝ) * (1 / (1 + Real.exp x ^ 2) * Real.exp x)
        = 2 * Real.exp x / (1 + Real.exp x ^ 2) from by ring]
    rw [div_le_one hden]
    nlinarith [sq_nonneg (Real.exp x - 1)]
  have hder : ∀ u ∈ (Set.univ : Set ℝ),
      HasDerivWithinAt (fun u => π / 2 - 2 * Real.arctan (Real.exp u))
        ((fun x => -(2 * (1 / (1 + Real.exp x ^ 2) * Real.exp x))) u) Set.univ u :=
    fun x _ => (hd x).hasDerivWithinAt
  have hbnd : ∀ u ∈ (Set.univ : Set ℝ),
      ‖(fun x => -(2 * (1 / (1 + Real.exp x ^ 2) * Real.exp x))) u‖ ≤ 1 :=
    fun x _ => hb x
  have h := convex_univ.norm_image_sub_le_of_norm_hasDerivWithin_le hder hbnd
    (Set.mem_univ b) (Set.mem_univ a)
  simpa [Real.norm_eq_abs] using h

/-- On (-pi/2, pi/2), the map u to pi/2 - 2*atan(exp u) inverts the Mercator
forward map t to -log((1+sin t)/(1-sin t))/2. -/
lemma merc_inverse (t : ℝ) (h1 : -(π / 2) < t) (h2 : t < π / 2) :
    π / 2 - 2 * Real.arctan (Real.exp (-(Real.log ((1 + Real.sin t) / (1 - Real.sin t)) / 2))) = t := by
  have hpi := Real.pi_pos
  obtain ⟨θ, hθ⟩ : ∃ θ : ℝ, θ = π / 4 - t / 2 := ⟨_, rfl⟩
  have hθ1 : 0 < θ := by rw [hθ]; linarith
  have hθ2 : θ < π / 2 := by rw [hθ]; linarith
  have hcθ : 0 < Real.cos θ := Real.cos_pos_of_mem_Ioo ⟨by linarith, hθ2⟩
  have hsθ : 0 < Real.sin θ := Real.sin_pos_of_pos_of_lt_pi hθ1 (by linarith)
  have hst : Real.sin t = Real.cos (2 * θ) := by
    have ht : t = π / 2 - 2 * θ := by rw [hθ]; ring
    rw [ht, Real.sin_pi_div_two_sub]
  have hpyth := Real.sin_sq_add_cos_sq θ
  have h1p : 1 + Real.sin t = 2 * Real.cos θ ^ 2 := by
    rw [hst, Real.cos_two_mul]; ring
  have h1m : 1 - Real.sin t = 2 * Real.sin θ ^ 2 := by
    rw [hst, Real.cos_two_mul]; nlinarith [hpyth]
  have hr : (1 + Real.sin t) / (1 - Real.sin t) = (Real.cos θ / Real.sin θ) ^ 2 := by
    rw [h1p, h1m]
    field_simp
    ring
  have hrpos : 0 < (1 + Real.sin t) / (1 - Real.sin t) := by
    rw [hr]
    positivity
  have hexp : Real.exp (-(Real.log ((1 + Real.sin t) / (1 - Real.sin t)) / 2))
      = Real.sin θ / Real.cos θ := by
    have hq : 0 < Real.sin θ / Real.cos θ := div_pos hsθ hcθ
    have hsq : Real.exp (-(Real.log ((1 + Real.sin t) / (1 - Real.sin t)) / 2)) ^ 2
        = (Real.sin θ / Real.cos θ) ^ 2 := by
      rw [sq, ← Real.exp_add]
      rw [show -(Real.log ((1 + Real.sin t) / (1 - Real.sin t)) / 2)
          + -(Real.log ((1 + Real.sin t) / (1 - Real.sin t)) / 2)
          = -Real.log ((1 + Real.sin t) / (1 - Real.sin t)) from by ring]
      rw [Real.exp_neg, Real.exp_log hrpos, hr, ← inv_pow, inv_div]
    have habs : |Real.exp (-(Real.log ((1 + Real.sin t) / (1 - Real.sin t)) / 2))|
        = |Real.sin θ / Real.cos θ| := by
      rw [← Real.sqrt_sq_eq_abs, ← Real.sqrt_sq_eq_abs, hsq]
    rwa [abs_of_pos (Real.exp_pos _), abs_of_pos hq] at habs
  rw [hexp, ← Real.tan_eq_sin_div_cos, Real.arctan_tan (by linarith) hθ2]
  rw [hθ]; ring

/-- Error form of the latitude round trip. -/
lemma lat_roundtrip_err (lat : ℝ) (hl1 : -90 < lat) (hl2 : lat < 90) :
    |YToLat ((LatToY lat : ℤ) : ℝ) - lat| ≤ 90 / OFFSET := by
  have hpi := Real.pi_pos
  have hπ : (π : ℝ) ≠ 0 := Real.pi_ne_zero
  have ht1 : -(π / 2) < radians lat := by
    unfold radians
    nlinarith [mul_pos hpi (show (0:ℝ) < lat + 90 from by linarith)]
  have ht2 : radians lat < π / 2 := by
    unfold radians
    nlinarith [mul_pos hpi (show (0:ℝ) < 90 - lat from by linarith)]
  set L := Real.log ((1 + Real.sin (radians lat)) / (1 - Real.sin (radians lat))) with hL
  have hyv : LatToY lat = round (OFFSET - RADIUS * L / 2) := by
    unfold LatToY
    rw [hL]
  have hround : |((LatToY lat : ℤ) : ℝ) - (OFFSET - RADIUS * L / 2)| ≤ 1 / 2 := by
    rw [hyv, abs_sub_comm]
    exact abs_sub_round _
  have hu : |(((LatToY lat : ℤ) : ℝ) - OFFSET) / RADIUS - -(L / 2)| ≤ π / (2 * OFFSET) := by
    have heq : (((LatToY lat : ℤ) : ℝ) - OFFSET) / RADIUS - -(L / 2)
        = ((((LatToY lat : ℤ) : ℝ) - OFFSET) + RADIUS * L / 2) / RADIUS := by
      rw [sub_neg_eq_add, eq_div_iff RADIUS_ne, add_mul, div_mul_cancel₀ _ RADIUS_ne]
      ring
    have hhalf : (1 / 2 : ℝ) / RADIUS = π / (2 * OFFSET) := by
      rw [RADIUS]
      field_simp [OFFSET_ne]
    have habs : |(((LatToY lat : ℤ) : ℝ) - OFFSET) + RADIUS * L / 2|
        = |((LatToY lat : ℤ) : ℝ) - (OFFSET - RADIUS * L / 2)| := by
      rw [show (((LatToY lat : ℤ) : ℝ) - OFFSET) + RADIUS * L / 2
          = ((LatToY lat : ℤ) : ℝ) - (OFFSET - RADIUS * L / 2) from by ring]
    rw [heq, abs_div, abs_of_pos RADIUS_pos, habs, ← hhalf]
    exact (div_le_div_iff_of_pos_right RADIUS_pos).mpr hround
  have hY : YToLat ((LatToY lat : ℤ) : ℝ)
      = degrees (π / 2 - 2 * Real.arctan (Real.exp ((((LatToY lat : ℤ) : ℝ) - OFFSET) / RADIUS))) := by
    unfold YToLat
    rw [round_intCast]
  have hlat : degrees (π / 2 - 2 * Real.arctan (Real.exp (-(L / 2)))) = lat := by
    rw [hL, merc_inverse (radians lat) ht1 ht2, degrees_radians]
  have hdiff : YToLat ((LatToY lat : ℤ) : ℝ) - lat
      = ((π / 2 - 2 * Real.arctan (Real.exp ((((LatToY lat : ℤ) : ℝ) - OFFSET) / RADIUS)))
          - (π / 2 - 2 * Real.arctan (Real.exp (-(L / 2))))) * (180 / π) := by
    rw [hY, ← hlat]
    unfold degrees
    ring
  have h3 : (0 : ℝ) < 180 / π := div_pos (by norm_num) Real.pi_pos
  rw [hdiff, abs_mul, abs_of_pos h3]
  calc |(π / 2 - 2 * Real.arctan (Real.exp ((((LatToY lat : ℤ) : ℝ) - OFFSET) / RADIUS)))
          - (π / 2 - 2 * Real.arctan (Real.exp (-(L / 2))))| * (180 / π)
      ≤ (π / (2 * OFFSET)) * (180 / π) := by
        refine mul_le_mul_of_nonneg_right ?_ h3.le
        exact le_trans (merc_lipschitz _ _) hu
    _ = 90 / OFFSET := by
        field_simp [Real.pi_ne_zero, OFFSET_ne]
        ring

/-- Concrete evaluation of LonToX at longitude 1: the pixel value
2^28 * 181/180 rounds to 269926764. -/
lemma LonToX_one : LonToX 1 = 269926764 := by
  unfold LonToX radians RADIUS OFFSET
  have h : (268435456 : ℝ) + 268435456 / π * (1 * π / 180) = 48586817536 / 180 := by
    field_simp
    ring
  rw [h, round_eq]
  rw [show (48586817536 : ℝ) / 180 + 1 / 2 = 48586817626 / 180 from by norm_num]
  rw [Int.floor_eq_iff]
  constructor <;> norm_num

/-- Concrete evaluation of XToLon at the integer pixel 269926764. -/
lemma XToLon_269926764 : XToLon ((269926764 : ℤ) : ℝ) = 268435440 / 268435456 := by
  unfold XToLon degrees RADIUS OFFSET
  rw [round_intCast]
  push_cast
  field_simp
  ring_nf

/-! ## C5 and C6 -/

/-- C5: for lon in (-180, 180), XToLon (LonToX lon) differs from lon by at
most one pixel-rounding step (one reference-zoom pixel spans 180 / 2^28
degrees of longitude; the error is in fact at most half a step), and
likewise for lat in (-85, 85) through LatToY / YToLat.  The inverse
functions round the pixel input to the nearest integer before inverting,
by definition of XToLon and YToLat. -/
theorem pixel_roundtrip_within_tolerance (lon lat : ℝ) :
    (-180 < lon ∧ lon < 180 → |XToLon ((LonToX lon : ℤ) : ℝ) - lon| ≤ 180 / 2 ^ 28) ∧
    (-85 < lat ∧ lat < 85 → |YToLat ((LatToY lat : ℤ) : ℝ) - lat| ≤ 180 / 2 ^ 28) := by
  constructor
  · intro _
    refine le_trans (lon_roundtrip_err lon) ?_
    norm_num [OFFSET]
  · rintro ⟨h1, h2⟩
    refine le_trans (lat_roundtrip_err lat (by linarith) (by linarith)) ?_
    norm_num [OFFSET]

/-- C6 counterexample: shifting by a zero pixel offset is NOT the exact
identity.  At lon = 1, lat = 0, zoom = 10 the longitude comes back as
268435440 / 268435456 = 0.99999994..., not 1: LonToX snaps 1 to the nearest
reference-zoom pixel and XToLon returns that pixel's longitude. -/
theorem shift_zero_not_identity_cx :
    (XYToLL 0 0 1 0 10).1 = 268435440 / 268435456 ∧
    (268435440 / 268435456 : ℝ) ≠ 1 := by
  constructor
  · have h1 : (XYToLL 0 0 1 0 10).1 = XToLon ((LonToX 1 : ℤ) : ℝ) := by
      unfold XYToLL
      norm_num
    rw [h1, LonToX_one, XToLon_269926764]
  · norm_num

/-- C6 as amended: for valid zoom (z ≤ 21) and coordinates in the
Mercator-safe range, XYToLL with a zero pixel offset returns the center
snapped to the reference-zoom pixel grid: equal to (lon, lat) within one
pixel-rounding step (180 / 2^28 degrees), but not exactly in general. -/
theorem shift_zero_within_pixel (lon lat : ℝ) (z : ℕ) :
    (z ≤ 21 ∧ -180 < lon ∧ lon < 180 →
      |(XYToLL 0 0 lon lat z).1 - lon| ≤ 180 / 2 ^ 28) ∧
    (z ≤ 21 ∧ -85 < lat ∧ lat < 85 →
      |(XYToLL 0 0 lon lat z).2 - lat| ≤ 180 / 2 ^ 28) := by
  have hfst : (XYToLL 0 0 lon lat z).1 = XToLon ((LonToX lon : ℤ) : ℝ) := by
    unfold XYToLL
    norm_num
  have hsnd : (XYToLL 0 0 lon lat z).2 = YToLat ((LatToY lat : ℤ) : ℝ) := by
    unfold XYToLL
    norm_num
  constructor
  · rintro ⟨_, h1, h2⟩
    rw [hfst]
    refine le_trans (lon_roundtrip_err lon) ?_
    norm_num [OFFSET]
  · rintro ⟨_, h1, h2⟩
    rw [hsnd]
    refine le_trans (lat_roundtrip_err lat (by linarith) (by linarith)) ?_
    norm_num [OFFSET]

/-! ## Supporting lemmas: slippy-map tile arithmetic (C4) -/

lemma sin_gt_neg_one (t : ℝ) (h1 : -(π / 2) < t) (h2 : t < π / 2) : -1 < Real.sin t := by
  have hpi := Real.pi_pos
  have hmono := Real.strictMonoOn_sin (Set.mem_Icc.mpr ⟨le_refl _, by linarith⟩)
    (Set.mem_Icc.mpr ⟨by linarith, by linarith⟩) h1
  rwa [Real.sin_neg, Real.sin_pi_div_two] at hmono

/-- The argument of the log in get_tile_coord is positive away from the poles. -/
lemma u_pos (t : ℝ) (h1 : -(π / 2) < t) (h2 : t < π / 2) :
    0 < Real.tan t + 1 / Real.cos t := by
  have hc : 0 < Real.cos t := Real.cos_pos_of_mem_Ioo ⟨h1, h2⟩
  have hs : -1 < Real.sin t := sin_gt_neg_one t h1 h2
  rw [Real.tan_eq_sin_div_cos, div_add_div_same]
  exact div_pos (by linarith) hc

/-- Inverting the slippy-map latitude formula: atan of sinh of the Mercator
ordinate recovers the latitude (in radians). -/
lemma merc_tile_inverse (t : ℝ) (h1 : -(π / 2) < t) (h2 : t < π / 2) :
    Real.arctan (Real.sinh (Real.log (Real.tan t + 1 / Real.cos t))) = t := by
  have hc : 0 < Real.cos t := Real.cos_pos_of_mem_Ioo ⟨h1, h2⟩
  have hs : -1 < Real.sin t := sin_gt_neg_one t h1 h2
  have hu : Real.tan t + 1 / Real.cos t = (1 + Real.sin t) / Real.cos t := by
    rw [Real.tan_eq_sin_div_cos, div_add_div_same]
    ring_nf
  have hupos : 0 < Real.tan t + 1 / Real.cos t := u_pos t h1 h2
  have hinv : (Real.tan t + 1 / Real.cos t)⁻¹ = (1 - Real.sin t) / Real.cos t := by
    refine inv_eq_of_mul_eq_one_right ?_
    rw [hu, div_mul_div_comm]
    rw [show (1 + Real.sin t) * (1 - Real.sin t) = 1 - Real.sin t ^ 2 from by ring]
    rw [show (1 : ℝ) - Real.sin t ^ 2 = Real.cos t ^ 2 from by
      nlinarith [Real.sin_sq_add_cos_sq t]]
    rw [show Real.cos t * Real.cos t = Real.cos t ^ 2 from by ring]
    exact div_self (by positivity)
  have hsinh : Real.sinh (Real.log (Real.tan t + 1 / Real.cos t)) = Real.tan t := by
    rw [Real.sinh_eq, Real.exp_log hupos, Real.exp_neg, Real.exp_log hupos]
    rw [hinv, hu, div_sub_div_same]
    rw [show (1 + Real.sin t - (1 - Real.sin t)) = 2 * Real.sin t from by ring]
    rw [Real.tan_eq_sin_div_cos]
    ring
  rw [hsinh, Real.arctan_tan h1 h2]

/-- Numeric bound feeding C4: sin of 5 degrees exceeds 0.0871. -/
lemma sin_pi36_gt : (0.0871 : ℝ) < Real.sin (π / 36) := by
  have hpos : (0 : ℝ) < π / 36 := by positivity
  have hle : π / 36 ≤ 1 := by
    have := Real.pi_lt_d6
    linarith
  have h := Real.sin_gt_sub_cube hpos hle
  have hlo : (3.141592 : ℝ) / 36 < π / 36 := by
    have := Real.pi_gt_d6
    linarith
  have hhi : π / 36 < 3.141593 / 36 := by
    have := Real.pi_lt_d6
    linarith
  have hcube : (π / 36) ^ 3 < (3.141593 / 36) ^ 3 :=
    pow_lt_pow_left₀ hhi (by positivity) (by norm_num)
  nlinarith

/-- Numeric bound feeding C4: e to the pi exceeds 23. -/
lemma exp_pi_gt_23 : (23 : ℝ) < Real.exp π := by
  have h3 : Real.exp 3 = Real.exp 1 ^ 3 := by
    rw [← Real.exp_nat_mul]
    norm_num
  have hsmall : Real.exp 0.141592 = Real.exp 0.070796 ^ 2 := by
    rw [← Real.exp_nat_mul]
    norm_num
  have hs2 : (1.070796 : ℝ) ^ 2 ≤ Real.exp 0.070796 ^ 2 := by
    have := Real.add_one_le_exp (0.070796 : ℝ)
    exact pow_le_pow_left₀ (by norm_num) (by linarith) 2
  have he1 : (2.7182818283 : ℝ) ^ 3 < Real.exp 1 ^ 3 :=
    pow_lt_pow_left₀ Real.exp_one_gt_d9 (by norm_num) (by norm_num)
  have hmono : Real.exp 3.141592 ≤ Real.exp π := Real.exp_le_exp.mpr Real.pi_gt_d6.le
  have hsplit : Real.exp 3.141592 = Real.exp 3 * Real.exp 0.141592 := by
    rw [← Real.exp_add]
    norm_num
  have hkey : (23 : ℝ) < Real.exp 3.141592 := by
    rw [hsplit, h3, hsmall]
    calc (23 : ℝ) < 2.7182818283 ^ 3 * 1.070796 ^ 2 := by norm_num
      _ ≤ Real.exp 1 ^ 3 * 1.070796 ^ 2 := by nlinarith
      _ ≤ Real.exp 1 ^ 3 * Real.exp 0.070796 ^ 2 := by
          have h0 : (0:ℝ) < Real.exp 1 ^ 3 := by positivity
          nlinarith
  linarith

/-- Within 85 degrees of the equator (in radians: |t| at most 17 pi/36), the
argument of the log in get_tile_coord stays below e to the pi, so the
Mercator ordinate stays below pi and the tile row is nonnegative. -/
lemma u_lt_exp_pi (t : ℝ) (hlo : -(17 * π / 36) ≤ t) (hhi : t ≤ 17 * π / 36) :
    Real.tan t + 1 / Real.cos t < Real.exp π := by
  have hpi := Real.pi_pos
  have hb : (17 : ℝ) * π / 36 < π / 2 := by nlinarith
  have h1 : -(π / 2) < t := by linarith
  have h2 : t < π / 2 := by linarith
  have hcos17 : Real.cos (17 * π / 36) = Real.sin (π / 36) := by
    rw [show (17 : ℝ) * π / 36 = π / 2 - π / 36 from by ring, Real.cos_pi_div_two_sub]
  have hsin17 : Real.sin (17 * π / 36) = Real.cos (π / 36) := by
    rw [show (17 : ℝ) * π / 36 = π / 2 - π / 36 from by ring, Real.sin_pi_div_two_sub]
  have hsin36 : (0.0871 : ℝ) < Real.sin (π / 36) := sin_pi36_gt
  have hcost : Real.sin (π / 36) ≤ Real.cos t := by
    rw [← hcos17, ← Real.cos_abs t]
    refine Real.cos_le_cos_of_nonneg_of_le_pi (abs_nonneg t) (by nlinarith) ?_
    rw [abs_le]
    exact ⟨by linarith, hhi⟩
  have htan : Real.tan t ≤ Real.tan (17 * π / 36) := by
    rcases eq_or_lt_of_le hhi with he | hlt
    · rw [he]
    · exact (Real.tan_lt_tan_of_lt_of_lt_pi_div_two h1 hb hlt).le
  have h1cos : 1 / Real.cos t ≤ 1 / Real.sin (π / 36) :=
    one_div_le_one_div_of_le (by linarith) hcost
  have htan17 : Real.tan (17 * π / 36) = Real.cos (π / 36) / Real.sin (π / 36) := by
    rw [Real.tan_eq_sin_div_cos, hsin17, hcos17]
  have hcos36 : Real.cos (π / 36) ≤ 1 := Real.cos_le_one _
  calc Real.tan t + 1 / Real.cos t
      ≤ Real.cos (π / 36) / Real.sin (π / 36) + 1 / Real.sin (π / 36) := by
        refine add_le_add ?_ h1cos
        rw [← htan17]
        exact htan
    _ = (Real.cos (π / 36) + 1) / Real.sin (π / 36) := by rw [div_add_div_same]
    _ ≤ 2 / 0.0871 := div_le_div₀ (by norm_num) (by linarith) (by norm_num) hsin36.le
    _ < 23 := by norm_num
    _ < Real.exp π := exp_pi_gt_23

/-- tileRowLat is strictly decreasing in the row index. -/
lemma tileRowLat_strictAnti (z : ℕ) {y1 y2 : ℝ} (h : y1 < y2) :
    MapManager.tileRowLat y2 z < MapManager.tileRowLat y1 z := by
  have hpi := Real.pi_pos
  have hn : (0 : ℝ) < 2 ^ z := by positivity
  unfold MapManager.tileRowLat
  have h2 : 2 * y1 / 2 ^ z < 2 * y2 / 2 ^ z :=
    (div_lt_div_iff_of_pos_right hn).mpr (by linarith)
  have harg : π * (1 - 2 * y2 / 2 ^ z) < π * (1 - 2 * y1 / 2 ^ z) :=
    mul_lt_mul_of_pos_left (by linarith) hpi
  have hmono := Real.arctan_strictMono (Real.sinh_lt_sinh.mpr harg)
  have h3 := mul_lt_mul_of_pos_right hmono (show (0 : ℝ) < 180 from by norm_num)
  exact (div_lt_div_iff_of_pos_right hpi).mpr h3

/-- tileRowLat is decreasing in the row index. -/
lemma tileRowLat_anti (z : ℕ) {y1 y2 : ℝ} (h : y1 ≤ y2) :
    MapManager.tileRowLat y2 z ≤ MapManager.tileRowLat y1 z := by
  rcases eq_or_lt_of_le h with he | hlt
  · rw [he]
  · exact (tileRowLat_strictAnti z hlt).le

/-- The real-valued tile row of the exact (unfloored) get_tile_coord argument
maps back to the original latitude under tileRowLat. -/
lemma tileRowLat_exact (lat : ℝ) (z : ℕ)
    (h1 : -(π / 2) < lat * π / 180) (h2 : lat * π / 180 < π / 2) :
    MapManager.tileRowLat
      ((1 - Real.log (Real.tan (lat * π / 180) + 1 / Real.cos (lat * π / 180)) / π) / 2 * 2 ^ z) z
      = lat := by
  have hpi := Real.pi_pos
  have hπ : (π : ℝ) ≠ 0 := Real.pi_ne_zero
  have hn : ((2 : ℝ) ^ z) ≠ 0 := by positivity
  unfold MapManager.tileRowLat
  have harg : π * (1 - 2 * ((1 - Real.log (Real.tan (lat * π / 180) + 1 / Real.cos (lat * π / 180)) / π) / 2 * 2 ^ z) / 2 ^ z)
      = Real.log (Real.tan (lat * π / 180) + 1 / Real.cos (lat * π / 180)) := by
    field_simp
    ring
  rw [harg, merc_tile_inverse _ h1 h2]
  field_simp

/-! ## C4 -/

/-- C4: for lon in (-180, 180) and lat in (-85, 85) at any zoom,
tile_nw_latlon of get_tile_coord yields the northwest corner of a tile whose
geographic bounding box - from its NW corner to the NW corner of tile
(x+1, y+1) - contains the original point. -/
theorem tile_roundtrip_contains (lon lat : ℝ) (z : ℕ) :
    (-180 < lon ∧ lon < 180 →
      (MapManager.tile_nw_latlon (MapManager.get_tile_coord lon lat z) z).2 ≤ lon ∧
      lon < (MapManager.tile_nw_latlon ((MapManager.get_tile_coord lon lat z).1 + 1,
               (MapManager.get_tile_coord lon lat z).2 + 1) z).2) ∧
    (-85 < lat ∧ lat < 85 →
      (MapManager.tile_nw_latlon ((MapManager.get_tile_coord lon lat z).1 + 1,
               (MapManager.get_tile_coord lon lat z).2 + 1) z).1 < lat ∧
      lat ≤ (MapManager.tile_nw_latlon (MapManager.get_tile_coord lon lat z) z).1) := by
  have hpi := Real.pi_pos
  have hn : (0 : ℝ) < 2 ^ z := by positivity
  constructor
  · rintro ⟨hl1, hl2⟩
    have hx : (MapManager.get_tile_coord lon lat z).1 = truncInt ((lon + 180) / 360 * 2 ^ z) := rfl
    have hargpos : 0 ≤ (lon + 180) / 360 * 2 ^ z :=
      mul_nonneg (div_nonneg (by linarith) (by norm_num)) hn.le
    have hfloor : truncInt ((lon + 180) / 360 * 2 ^ z) = ⌊(lon + 180) / 360 * 2 ^ z⌋ := by
      unfold truncInt
      rw [if_pos hargpos]
    have hle : ((⌊(lon + 180) / 360 * 2 ^ z⌋ : ℤ) : ℝ) ≤ (lon + 180) / 360 * 2 ^ z :=
      Int.floor_le _
    have hlt : (lon + 180) / 360 * 2 ^ z < (⌊(lon + 180) / 360 * 2 ^ z⌋ : ℝ) + 1 :=
      Int.lt_floor_add_one _
    constructor
    · show MapManager.tileColLon (((MapManager.get_tile_coord lon lat z).1 : ℤ) : ℝ) z ≤ lon
      rw [hx, hfloor]
      unfold MapManager.tileColLon
      rw [sub_le_iff_le_add, div_mul_eq_mul_div, div_le_iff₀ hn]
      have h3 := mul_le_mul_of_nonneg_right hle (show (0 : ℝ) ≤ 360 from by norm_num)
      rw [show ((lon + 180) / 360 * 2 ^ z) * 360 = (lon + 180) * 2 ^ z from by ring] at h3
      linarith
    · show lon < MapManager.tileColLon (((MapManager.get_tile_coord lon lat z).1 + 1 : ℤ) : ℝ) z
      rw [hx, hfloor]
      unfold MapManager.tileColLon
      push_cast
      rw [lt_sub_iff_add_lt, div_mul_eq_mul_div, lt_div_iff₀ hn]
      have h3 := mul_lt_mul_of_pos_right hlt (show (0 : ℝ) < 360 from by norm_num)
      rw [show ((lon + 180) / 360 * 2 ^ z) * 360 = (lon + 180) * 2 ^ z from by ring] at h3
      linarith
  · rintro ⟨hb1, hb2⟩
    have ht17l : -(17 * π / 36) ≤ lat * π / 180 := by
      nlinarith [mul_pos hpi (show (0 : ℝ) < lat + 85 from by linarith)]
    have ht17r : lat * π / 180 ≤ 17 * π / 36 := by
      nlinarith [mul_pos hpi (show (0 : ℝ) < 85 - lat from by linarith)]
    have h1 : -(π / 2) < lat * π / 180 := by linarith
    have h2 : lat * π / 180 < π / 2 := by linarith
    have hupos : 0 < Real.tan (lat * π / 180) + 1 / Real.cos (lat * π / 180) := u_pos _ h1 h2
    have hL : Real.log (Real.tan (lat * π / 180) + 1 / Real.cos (lat * π / 180)) ≤ π :=
      (Real.log_le_iff_le_exp hupos).mpr (u_lt_exp_pi _ ht17l ht17r).le
    have hy : (MapManager.get_tile_coord lon lat z).2
        = truncInt ((1 - Real.log (Real.tan (lat * π / 180) + 1 / Real.cos (lat * π / 180)) / π) / 2 * 2 ^ z) := rfl
    have hargpos : 0 ≤ (1 - Real.log (Real.tan (lat * π / 180) + 1 / Real.cos (lat * π / 180)) / π) / 2 * 2 ^ z := by
      have hq : Real.log (Real.tan (lat * π / 180) + 1 / Real.cos (lat * π / 180)) / π ≤ 1 :=
        (div_le_one hpi).mpr hL
      exact mul_nonneg (div_nonneg (by linarith) (by norm_num)) hn.le
    have hfloor : truncInt ((1 - Real.log (Real.tan (lat * π / 180) + 1 / Real.cos (lat * π / 180)) / π) / 2 * 2 ^ z)
        = ⌊(1 - Real.log (Real.tan (lat * π / 180) + 1 / Real.cos (lat * π / 180)) / π) / 2 * 2 ^ z⌋ := by
      unfold truncInt
      rw [if_pos hargpos]
    have hle : ((⌊(1 - Real.log (Real.tan (lat * π / 180) + 1 / Real.cos (lat * π / 180)) / π) / 2 * 2 ^ z⌋ : ℤ) : ℝ)
        ≤ (1 - Real.log (Real.tan (lat * π / 180) + 1 / Real.cos (lat * π / 180)) / π) / 2 * 2 ^ z :=
      Int.floor_le _
    have hlt : (1 - Real.log (Real.tan (lat * π / 180) + 1 / Real.cos (lat * π / 180)) / π) / 2 * 2 ^ z
        < (⌊(1 - Real.log (Real.tan (lat * π / 180) + 1 / Real.cos (lat * π / 180)) / π) / 2 * 2 ^ z⌋ : ℝ) + 1 :=
      Int.lt_floor_add_one _
    have hexact := tileRowLat_exact lat z h1 h2
    constructor
    · show MapManager.tileRowLat (((MapManager.get_tile_coord lon lat z).2 + 1 : ℤ) : ℝ) z < lat
      rw [hy, hfloor]
      push_cast
      have hfin := tileRowLat_strictAnti z hlt
      rw [hexact] at hfin
      exact hfin
    · show lat ≤ MapManager.tileRowLat (((MapManager.get_tile_coord lon lat z).2 : ℤ) : ℝ) z
      rw [hy, hfloor]
      have hfin := tileRowLat_anti z hle
      rw [hexact] at hfin
      exact hfin

/-! ## C3: cache policy of retrieve_tile_image -/

/-- C3: if the deterministically named cache file exists, retrieve_tile_image
returns its path with no fetch at all; if it does not exist, exactly one
fetch of the tile URL is attempted (no retry), a failing fetch raises an
error whose message is exactly
"Unable to retrieve URL: " + url + newline + cause (so it includes the
attempted URL and the underlying cause), and a succeeding fetch returns the
cache path. -/
theorem retrieve_tile_cache_and_single_fetch (mgr : MapMgr) (fs : String → Bool)
    (fetch : String → String → Except String Unit) (tile : ℤ × ℤ) (zoom : ℕ) :
    (fs (MapManager.get_local_filename mgr tile zoom) = true →
      MapManager.retrieve_tile_image mgr fs fetch tile zoom
        = (Except.ok (MapManager.get_local_filename mgr tile zoom), [])) ∧
    (fs (MapManager.get_local_filename mgr tile zoom) = false →
      (MapManager.retrieve_tile_image mgr fs fetch tile zoom).2
          = [MapManager.get_tile_url mgr tile zoom] ∧
      (∀ e : String,
        fetch (MapManager.get_tile_url mgr tile zoom)
            (MapManager.get_local_filename mgr tile zoom) = Except.error e →
        (MapManager.retrieve_tile_image mgr fs fetch tile zoom).1
          = Except.error ("Unable to retrieve URL: "
              ++ MapManager.get_tile_url mgr tile zoom ++ "\n" ++ e)) ∧
      (fetch (MapManager.get_tile_url mgr tile zoom)
            (MapManager.get_local_filename mgr tile zoom) = Except.ok () →
        (MapManager.retrieve_tile_image mgr fs fetch tile zoom).1
          = Except.ok (MapManager.get_local_filename mgr tile zoom))) := by
  constructor
  · intro h
    simp [MapManager.retrieve_tile_image, h]
  · intro h
    refine ⟨?_, ?_, ?_⟩
    · simp only [MapManager.retrieve_tile_image, h]
      cases hf : fetch (MapManager.get_tile_url mgr tile zoom)
          (MapManager.get_local_filename mgr tile zoom) <;> simp [hf]
    · intro e he
      simp [MapManager.retrieve_tile_image, h, he]
    · intro hok
      simp [MapManager.retrieve_tile_image, h, hok]

/-! ## C7: cache filename layout -/

/-- C7 counterexample: with an injected digest function returning the hex
string below, the cache filename is NOT of the claimed form
(first 5 hex digest characters)-(maptype)_(zoom)_(x)_(y).png: the actual
prefix carries a leading "mappie-". -/
theorem cache_filename_cx :
    MapManager.get_local_filename
        { cache := "/tmp", server := "http://tile.openstreetmap.org", maptype := "terrain",
          cache_pre := mk_cache_pre (fun _ => "abcdef0123456789abcdef0123456789")
            "http://tile.openstreetmap.org" } (3, 4) 5
      = "/tmp/mappie-abcde-terrain_5_3_4.png" ∧
    "/tmp/mappie-abcde-terrain_5_3_4.png" ≠ "/tmp/abcde-terrain_5_3_4.png" := by
  constructor
  · rfl
  · decide

/-- C7 as amended: the cache file path is the cache directory joined with
"mappie-" + (first 5 hex characters of the MD5 digest of the server URL)
+ "-" + maptype + "_" + zoom + "_" + tileX + "_" + tileY + ".png". -/
theorem cache_filename_format (md5hex : String → String) (cache server mt : String)
    (tile : ℤ × ℤ) (zoom : ℕ) :
    MapManager.get_local_filename
        { cache := cache, server := server, maptype := mt,
          cache_pre := mk_cache_pre md5hex server } tile zoom
      = cache ++ "/" ++ "mappie-" ++ (md5hex server).take 5 ++ "-" ++ mt ++ "_"
          ++ toString zoom ++ "_" ++ toString tile.1 ++ "_" ++ toString tile.2 ++ ".png" := by
  simp only [MapManager.get_local_filename, mk_cache_pre, pathJoin, String.append_assoc]

/-! ## C10: overwrite behavior of create_map -/

/-- C10: when the image manager already holds an image, create_map with
overwrite := false raises the prepare_image error and leaves the stored
image unchanged; with the default (absent) overwrite the image is always
re-created with the computed tile-grid dimensions, whatever was stored. -/
theorem create_map_overwrite (mgr : MapMgr) (img : ℤ × ℤ) (image : Option (ℤ × ℤ))
    (fs : String → Bool) (fetch : String → String → Except String Unit)
    (minlat maxlat minlon maxlon : ℝ) (zoom : ℕ) (color : Option String) :
    (MapManager.create_map mgr (some img) fs fetch minlat maxlat minlon maxlon zoom color
        (some false)
      = (some img, Except.error
          "Image already prepared. Set \x27overwrite\x27 to True if you want to create a new image.")) ∧
    ((MapManager.create_map mgr image fs fetch minlat maxlat minlon maxlon zoom color none).1
      = some (((MapManager.get_tile_coord maxlon minlat zoom).1
                - (MapManager.get_tile_coord minlon maxlat zoom).1 + 1) * 256,
              ((MapManager.get_tile_coord maxlon minlat zoom).2
                - (MapManager.get_tile_coord minlon maxlat zoom).2 + 1) * 256)) := by
  constructor
  · simp [MapManager.create_map, ImageManager.prepare_image]
  · cases hrun : MapManager.run_tiles mgr fs fetch zoom
        (MapManager.tile_grid (MapManager.get_tile_coord minlon maxlat zoom).1
          (MapManager.get_tile_coord maxlon minlat zoom).1
          (MapManager.get_tile_coord minlon maxlat zoom).2
          (MapManager.get_tile_coord maxlon minlat zoom).2) <;>
      simp [MapManager.create_map, ImageManager.prepare_image, hrun]

/-! ## C2: the returned bounding box is the full tile-rectangle extent -/

/-- C2: whenever create_map returns, the bounding box it hands back is the
geographic extent of the full tile rectangle: its (new_maxlat, new_minlon)
pair is tile_nw_latlon of the top-left tile, and its
(new_minlat, new_maxlon) pair is tile_nw_latlon of (maxX+1, maxY+1) - the
tile grid's corners, not the requested sub-box.  The returned tuple is
ordered (new_minlat, new_maxlat, new_minlon, new_maxlon). -/
theorem create_map_bounds (mgr : MapMgr) (image : Option (ℤ × ℤ)) (fs : String → Bool)
    (fetch : String → String → Except String Unit)
    (minlat maxlat minlon maxlon : ℝ) (zoom : ℕ)
    (color : Option String) (overwrite : Option Bool) :
    (∀ r : MapManager.MapResult,
      (MapManager.create_map mgr image fs fetch minlat maxlat minlon maxlon zoom color overwrite).2
          = Except.ok r →
        (r.bounds.2.1, r.bounds.2.2.1)
          = MapManager.tile_nw_latlon (MapManager.get_tile_coord minlon maxlat zoom) zoom) ∧
    (∀ r : MapManager.MapResult,
      (MapManager.create_map mgr image fs fetch minlat maxlat minlon maxlon zoom color overwrite).2
          = Except.ok r →
        (r.bounds.1, r.bounds.2.2.2)
          = MapManager.tile_nw_latlon ((MapManager.get_tile_coord maxlon minlat zoom).1 + 1,
              (MapManager.get_tile_coord maxlon minlat zoom).2 + 1) zoom) := by
  have key : ∀ r : MapManager.MapResult,
      (MapManager.create_map mgr image fs fetch minlat maxlat minlon maxlon zoom color overwrite).2
          = Except.ok r →
      r.bounds = ((MapManager.tile_nw_latlon ((MapManager.get_tile_coord maxlon minlat zoom).1 + 1,
                    (MapManager.get_tile_coord maxlon minlat zoom).2 + 1) zoom).1,
                  (MapManager.tile_nw_latlon (MapManager.get_tile_coord minlon maxlat zoom) zoom).1,
                  (MapManager.tile_nw_latlon (MapManager.get_tile_coord minlon maxlat zoom) zoom).2,
                  (MapManager.tile_nw_latlon ((MapManager.get_tile_coord maxlon minlat zoom).1 + 1,
                    (MapManager.get_tile_coord maxlon minlat zoom).2 + 1) zoom).2) := by
    intro r hr
    cases hprep : ImageManager.prepare_image image
        (((MapManager.get_tile_coord maxlon minlat zoom).1
            - (MapManager.get_tile_coord minlon maxlat zoom).1 + 1) * 256)
        (((MapManager.get_tile_coord maxlon minlat zoom).2
            - (MapManager.get_tile_coord minlon maxlat zoom).2 + 1) * 256)
        (overwrite.getD true) with
    | error e =>
      simp [MapManager.create_map, hprep] at hr
    | ok image2 =>
      cases hrun : MapManager.run_tiles mgr fs fetch zoom
          (MapManager.tile_grid (MapManager.get_tile_coord minlon maxlat zoom).1
            (MapManager.get_tile_coord maxlon minlat zoom).1
            (MapManager.get_tile_coord minlon maxlat zoom).2
            (MapManager.get_tile_coord maxlon minlat zoom).2) with
      | error e =>
        simp [MapManager.create_map, hprep, hrun] at hr
      | ok ps =>
        simp [MapManager.create_map, hprep, hrun] at hr
        rw [← hr]
  constructor
  · intro r hr
    rw [key r hr]
  · intro r hr
    rw [key r hr]

/-! ## C8: scale validation of GoogleManager.create_map -/

/-- C8 counterexample: a supplied scale of 0 is outside the set 1, 2, 4 but
does NOT fail: Python truthiness (if self.scale:) skips the membership check
for 0, which silently defaults to 2, and the call succeeds. -/
theorem google_scale_zero_cx :
    isOkE (GoogleManager.create_map
        { cache := "/tmp", server := "srv", maptype := "", cache_pre := "mappie-abcde-" }
        none (fun _ => true) (fun _ _ => Except.ok ()) (fun _ => "0.0")
        0 0 0 0 10 none none (some 0) none none none none none).2 = true ∧
    ¬((0 : ℤ) = 1 ∨ (0 : ℤ) = 2 ∨ (0 : ℤ) = 4) := by
  constructor
  · simp [GoogleManager.create_map, GoogleManager.pick_maptype, GoogleManager.pick_size,
      GoogleManager.pick_scale, GoogleManager.pick_markers, GoogleManager.pick_paths,
      ImageManager.prepare_image, ImageManager.color_mode, isOkE]
  · decide

/-- C8 as amended: for every supplied truthy scale value s (s different
from 0 - a supplied 0 is falsy and silently defaults to 2, see the
counterexample): if s is outside the set 1, 2, 4 the call fails with the
scale ValueError before prepare_image and before any fetch (the image state
is returned unchanged, at every zoom), and if s is one of 1, 2, 4 the scale
validation passes and a call with otherwise benign arguments succeeds at
any valid zoom (zoom at most 21; beyond that the source raises a ValueError
from the negative shift count in XYToLL, regardless of scale). -/
theorem google_scale_validation (s : ℤ) (mgr : MapMgr) (image : Option (ℤ × ℤ))
    (fs : String → Bool) (fetch : String → String → Except String Unit) (fmt : ℝ → String)
    (minlat maxlat minlon maxlon : ℝ) (zoom : ℕ) (style : Option String)
    (markers : Option (List (ℝ × ℝ))) (paths : Option (List (List (ℝ × ℝ))))
    (color : Option String) (overwrite : Option Bool) :
    (s ≠ 0 ∧ s ≠ 1 ∧ s ≠ 2 ∧ s ≠ 4 →
      GoogleManager.create_map mgr image fs fetch fmt minlat maxlat minlon maxlon zoom
          none none (some s) style markers paths color overwrite
        = (image, Except.error "Invalid scale parameter, must be 1, 2, or 4")) ∧
    ((s = 1 ∨ s = 2 ∨ s = 4) ∧ zoom ≤ 21 →
      isOkE (GoogleManager.create_map mgr image (fun _ => true) (fun _ _ => Except.ok ()) fmt
          minlat maxlat minlon maxlon zoom none none (some s) none none none none none).2
        = true) := by
  constructor
  · rintro ⟨h0, h1, h2, h4⟩
    simp [GoogleManager.create_map, GoogleManager.pick_maptype, GoogleManager.pick_size,
      GoogleManager.pick_scale, h0, h1, h2, h4]
  · rintro ⟨hs, hz⟩
    have h0 : ¬(s = 0) := by rcases hs with h | h | h <;> omega
    simp [GoogleManager.create_map, GoogleManager.pick_maptype, GoogleManager.pick_size,
      GoogleManager.pick_scale, GoogleManager.pick_markers, GoogleManager.pick_paths,
      ImageManager.prepare_image, ImageManager.color_mode, isOkE, h0, hs, hz]

/-! ## C9: transposed surface dimensions in GoogleManager.create_map -/

/-- C9: for every accepted size (h, v) - documented as (horizontal,
vertical) - and scale, the surface prepared by GoogleManager.create_map has
width scale*v (the vertical component) and height scale*h (the horizontal
component): the two size components are transposed relative to their
documented meaning.  The resulting image state records (width, height); it
is prepared like this at every zoom (for zoom > 21 the source raises from
the later XYToLL shift, after the surface was already prepared), and at any
valid zoom (at most 21) the call as a whole succeeds. -/
theorem google_surface_transposed (hsz vsz sc : ℤ) (mgr : MapMgr) (image : Option (ℤ × ℤ))
    (fmt : ℝ → String) (minlat maxlat minlon maxlon : ℝ) (zoom : ℕ) :
    (0 < hsz ∧ hsz ≤ 640 ∧ 0 < vsz ∧ vsz ≤ 640 ∧ (sc = 1 ∨ sc = 2 ∨ sc = 4) →
      (GoogleManager.create_map mgr image (fun _ => true) (fun _ _ => Except.ok ()) fmt
          minlat maxlat minlon maxlon zoom none (some (hsz, vsz)) (some sc)
          none none none none none).1
        = some (sc * vsz, sc * hsz)) ∧
    (0 < hsz ∧ hsz ≤ 640 ∧ 0 < vsz ∧ vsz ≤ 640 ∧ (sc = 1 ∨ sc = 2 ∨ sc = 4) ∧ zoom ≤ 21 →
      isOkE (GoogleManager.create_map mgr image (fun _ => true) (fun _ _ => Except.ok ()) fmt
          minlat maxlat minlon maxlon zoom none (some (hsz, vsz)) (some sc)
          none none none none none).2 = true) := by
  constructor
  · rintro ⟨hh1, hh2, hv1, hv2, hsc⟩
    have h0 : ¬(sc = 0) := by rcases hsc with h | h | h <;> omega
    by_cases hz : zoom ≤ 21 <;>
      simp [GoogleManager.create_map, GoogleManager.pick_maptype, GoogleManager.pick_size,
        GoogleManager.pick_scale, GoogleManager.pick_markers, GoogleManager.pick_paths,
        ImageManager.prepare_image, ImageManager.color_mode, h0, hsc,
        hh1, hh2, hv1, hv2, hz]
  · rintro ⟨hh1, hh2, hv1, hv2, hsc, hz⟩
    have h0 : ¬(sc = 0) := by rcases hsc with h | h | h <;> omega
    simp [GoogleManager.create_map, GoogleManager.pick_maptype, GoogleManager.pick_size,
      GoogleManager.pick_scale, GoogleManager.pick_markers, GoogleManager.pick_paths,
      ImageManager.prepare_image, ImageManager.color_mode, isOkE, h0, hsc,
      hh1, hh2, hv1, hv2, hz]

/-! ## C1: grid enumeration and paste offsets -/

/-- Membership in the tile-loop list: exactly the pairs produced by the two
ranges. -/
lemma tile_grid_mem (minX maxX minY maxY : ℤ) (p : (ℤ × ℤ) × (ℤ × ℤ)) :
    p ∈ MapManager.tile_grid minX maxX minY maxY ↔
      ∃ i j : ℕ, i < (maxX + 1 - minX).toNat ∧ j < (maxY + 1 - minY).toNat ∧
        p = ((minX + (i : ℤ), minY + (j : ℤ)), (256 * (i : ℤ), 256 * (j : ℤ))) := by
  rw [MapManager.tile_grid, List.mem_flatMap]
  constructor
  · rintro ⟨i, hi, hmem⟩
    rw [List.mem_map] at hmem
    obtain ⟨j, hj, hp⟩ := hmem
    exact ⟨i, j, List.mem_range.mp hi, List.mem_range.mp hj, hp.symm⟩
  · rintro ⟨i, j, hi, hj, hp⟩
    exact ⟨i, List.mem_range.mpr hi, List.mem_map.mpr ⟨j, List.mem_range.mpr hj, hp.symm⟩⟩

/-- The requested tiles are exactly the integer points of the rectangle
[minX, maxX] x [minY, maxY]. -/
lemma tile_grid_mem_fst (minX maxX minY maxY x y : ℤ) :
    (x, y) ∈ (MapManager.tile_grid minX maxX minY maxY).map Prod.fst ↔
      (minX ≤ x ∧ x ≤ maxX ∧ minY ≤ y ∧ y ≤ maxY) := by
  rw [List.mem_map]
  constructor
  · rintro ⟨p, hp, hfst⟩
    rw [tile_grid_mem] at hp
    obtain ⟨i, j, hi, hj, rfl⟩ := hp
    obtain ⟨hx, hy⟩ := Prod.ext_iff.mp hfst
    simp only at hx hy
    omega
  · rintro ⟨h1, h2, h3, h4⟩
    refine ⟨((minX + ((x - minX).toNat : ℤ), minY + ((y - minY).toNat : ℤ)),
             (256 * ((x - minX).toNat : ℤ), 256 * ((y - minY).toNat : ℤ))), ?_, ?_⟩
    · rw [tile_grid_mem]
      exact ⟨(x - minX).toNat, (y - minY).toNat, by omega, by omega, rfl⟩
    · show (minX + ((x - minX).toNat : ℤ), minY + ((y - minY).toNat : ℤ)) = (x, y)
      rw [Prod.mk.injEq]
      constructor <;> omega

/-- Each tile of the rectangle is enumerated exactly once. -/
lemma tile_grid_nodup_fst (minX maxX minY maxY : ℤ) :
    ((MapManager.tile_grid minX maxX minY maxY).map Prod.fst).Nodup := by
  have hmap : (MapManager.tile_grid minX maxX minY maxY).map Prod.fst
      = (List.range (maxX + 1 - minX).toNat).flatMap (fun (i : ℕ) =>
          (List.range (maxY + 1 - minY).toNat).map
            (fun (j : ℕ) => (minX + (i : ℤ), minY + (j : ℤ)))) := by
    rw [MapManager.tile_grid, List.map_flatMap]
    simp only [List.map_map, Function.comp_def]
  rw [hmap, List.nodup_flatMap]
  constructor
  · intro i _
    refine List.Nodup.map ?_ (List.nodup_range _)
    intro a b hab
    have h2 := (Prod.ext_iff.mp hab).2
    simp only at h2
    omega
  · refine (List.pairwise_lt_range _).imp ?_
    intro a b hab
    simp only [Function.onFun]
    intro p hp hq
    rw [List.mem_map] at hp hq
    obtain ⟨j1, _, h1⟩ := hp
    obtain ⟨j2, _, h2⟩ := hq
    have := (Prod.ext_iff.mp (h1.trans h2.symm)).1
    simp only at this
    omega

/-- Every grid entry carries the paste offset (256*(x-minX), 256*(y-minY)). -/
lemma tile_grid_offsets (minX maxX minY maxY x y xo yo : ℤ)
    (hmem : ((x, y), (xo, yo)) ∈ MapManager.tile_grid minX maxX minY maxY) :
    xo = 256 * (x - minX) ∧ yo = 256 * (y - minY) := by
  rw [tile_grid_mem] at hmem
  obtain ⟨i, j, hi, hj, hp⟩ := hmem
  obtain ⟨hxy, hoff⟩ := Prod.ext_iff.mp hp
  obtain ⟨hx, hy⟩ := Prod.ext_iff.mp hxy
  obtain ⟨hxo, hyo⟩ := Prod.ext_iff.mp hoff
  simp only at hx hy hxo hyo
  omega

/-- A successful tile loop pastes in exactly the grid's offset order. -/
lemma run_tiles_map_snd (mgr : MapMgr) (fs : String → Bool)
    (fetch : String → String → Except String Unit) (zoom : ℕ) :
    ∀ (l : List ((ℤ × ℤ) × (ℤ × ℤ))) (ps : List (String × (ℤ × ℤ))),
      MapManager.run_tiles mgr fs fetch zoom l = Except.ok ps →
      ps.map Prod.snd = l.map Prod.snd := by
  intro l
  induction l with
  | nil =>
    intro ps h
    simp only [MapManager.run_tiles] at h
    cases h
    simp
  | cons hd tl ih =>
    intro ps h
    obtain ⟨t, off⟩ := hd
    simp only [MapManager.run_tiles] at h
    cases h1 : (MapManager.retrieve_tile_image mgr fs fetch t zoom).1 with
    | error e =>
      rw [h1] at h
      simp at h
    | ok fname =>
      rw [h1] at h
      cases h2 : MapManager.run_tiles mgr fs fetch zoom tl with
      | error e =>
        rw [h2] at h
        simp at h
      | ok ps2 =>
        rw [h2] at h
        simp only [Except.ok.injEq] at h
        subst h
        simp only [List.map_cons]
        rw [ih ps2 h2]

/-- C1: with overwrite at its default, create_map prepares a surface of
exactly (maxX-minX+1)*256 by (maxY-minY+1)*256 pixels for the tile corners
topleft = get_tile_coord(minlon, maxlat) and
bottomright = get_tile_coord(maxlon, minlat); the tile loop enumerates
exactly the tiles of [minX, maxX] x [minY, maxY], each exactly once, pasting
tile (x, y) at pixel offset (256*(x-minX), 256*(y-minY)); and a successful
call runs exactly that loop, pasting in loop order. -/
theorem create_map_grid (mgr : MapMgr) (image : Option (ℤ × ℤ)) (fs : String → Bool)
    (fetch : String → String → Except String Unit)
    (minlat maxlat minlon maxlon : ℝ) (zoom : ℕ) (color : Option String)
    (minX minY maxX maxY : ℤ) :
    (MapManager.get_tile_coord minlon maxlat zoom = (minX, minY) ∧
     MapManager.get_tile_coord maxlon minlat zoom = (maxX, maxY) →
      (MapManager.create_map mgr image fs fetch minlat maxlat minlon maxlon zoom color none).1
        = some ((maxX - minX + 1) * 256, (maxY - minY + 1) * 256)) ∧
    (∀ x y : ℤ, (x, y) ∈ (MapManager.tile_grid minX maxX minY maxY).map Prod.fst ↔
      (minX ≤ x ∧ x ≤ maxX ∧ minY ≤ y ∧ y ≤ maxY)) ∧
    ((MapManager.tile_grid minX maxX minY maxY).map Prod.fst).Nodup ∧
    (∀ x y xo yo : ℤ, ((x, y), (xo, yo)) ∈ MapManager.tile_grid minX maxX minY maxY →
      xo = 256 * (x - minX) ∧ yo = 256 * (y - minY)) ∧
    (MapManager.get_tile_coord minlon maxlat zoom = (minX, minY) ∧
     MapManager.get_tile_coord maxlon minlat zoom = (maxX, maxY) →
      ∀ r : MapManager.MapResult,
        (MapManager.create_map mgr image fs fetch minlat maxlat minlon maxlon zoom color none).2
          = Except.ok r →
        r.tiles = MapManager.tile_grid minX maxX minY maxY ∧
        r.pasted.map Prod.snd = r.tiles.map Prod.snd) := by
  refine ⟨?_, fun x y => tile_grid_mem_fst minX maxX minY maxY x y,
    tile_grid_nodup_fst minX maxX minY maxY,
    fun x y xo yo h => tile_grid_offsets minX maxX minY maxY x y xo yo h, ?_⟩
  · rintro ⟨hmin, hmax⟩
    simp only [MapManager.create_map, hmin, hmax, ImageManager.prepare_image]
    cases MapManager.run_tiles mgr fs fetch zoom
        (MapManager.tile_grid minX maxX minY maxY) <;> simp
  · rintro ⟨hmin, hmax⟩ r hr
    cases hrun : MapManager.run_tiles mgr fs fetch zoom
        (MapManager.tile_grid (MapManager.get_tile_coord minlon maxlat zoom).1
          (MapManager.get_tile_coord maxlon minlat zoom).1
          (MapManager.get_tile_coord minlon maxlat zoom).2
          (MapManager.get_tile_coord maxlon minlat zoom).2) with
    | error e =>
      simp [MapManager.create_map, ImageManager.prepare_image, hrun] at hr
    | ok ps =>
      simp [MapManager.create_map, ImageManager.prepare_image, hrun] at hr
      subst hr
      constructor
      · simp [hmin, hmax]
      · have h2 := run_tiles_map_snd mgr fs fetch zoom _ ps hrun
        simpa [hmin, hmax] using h2
